import Mathlib

/-!
Shallow embedding of the SPADA auto-attendance scheduler (`spda.py`) together
with the pause-flag key construction of the two chat-bot front ends
(`telegbot.py`, `discordbot.py`).

Modelling conventions:
* The flag directories (`flags/` and `flags/attendance/`) are modelled as a
  single list of file names (`Store`); the key families are prefix-disjoint
  (`pause_…` vs `success_…`/`retry_…`), so one store is observation-equivalent
  to the two directories.
* `datetime.now()` is split into the data the code actually reads: the
  localized day name (`today : String`), the second-of-day (`nowSec : Nat`)
  and the date stamp (`date : String`, `YYYY-MM-DD`).
* The Playwright actor `login_and_attend` is a black box from the scheduler's
  point of view; its three-way result (returns `True`, returns `False`,
  raises) is the inductive `Outcome`.
* Notifications are collected as a list of message strings.
-/

namespace Spda

/-- Python's whitespace class: the characters matched by `\s` in a `str`
pattern and stripped by `str.strip()` (both use the Unicode whitespace
predicate `str.isspace`): TAB..CR (U+0009–U+000D), space, the file/group/
record/unit separators (U+001C–U+001F), NEL (U+0085), NBSP (U+00A0), Ogham
space mark (U+1680), the typographic spaces U+2000–U+200A, line/paragraph
separators (U+2028/U+2029), narrow NBSP (U+202F), medium mathematical space
(U+205F) and ideographic space (U+3000). -/
def isPySpace (c : Char) : Bool :=
  let n := c.toNat
  (9 ≤ n && n ≤ 13) || n = 32 || (28 ≤ n && n ≤ 31) || n = 0x85 || n = 0xa0
    || n = 0x1680 || (0x2000 ≤ n && n ≤ 0x200a) || n = 0x2028 || n = 0x2029
    || n = 0x202f || n = 0x205f || n = 0x3000

/-- Python `str.strip()`: drop whitespace from both ends. -/
def pyStrip (l : List Char) : List Char :=
  ((l.dropWhile isPySpace).reverse.dropWhile isPySpace).reverse

/-- Replace every maximal whitespace run by a single underscore
(the `re.sub(r"\s+", "_", ·)` part of `spda._safe`).  The boolean argument
records whether the scanner is currently inside a whitespace run: the run's
first character emits `'_'`, the rest of the run emits nothing. -/
def collapseWsAux : Bool → List Char → List Char
  | _, [] => []
  | inRun, c :: rest =>
    if isPySpace c then
      if inRun then collapseWsAux true rest else '_' :: collapseWsAux true rest
    else c :: collapseWsAux false rest

def collapseWs (l : List Char) : List Char := collapseWsAux false l

/-- `spda._safe`: `re.sub(r"\s+", "_", name.strip())`. -/
def safeName (name : String) : String :=
  String.mk (collapseWs (pyStrip name.toList))

/-- The bots' course-name sanitizer: `next_class.replace(' ', '_')`
(identical in `telegbot.cmd_pauseonce` and `discordbot.pauseonce`). -/
def botSafeName (name : String) : String :=
  String.mk (name.toList.map (fun c => if c = ' ' then '_' else c))

/-- Every whitespace character of the list is a plain space. -/
def pyWsOnlySpace (l : List Char) : Bool :=
  l.all (fun c => !(isPySpace c) || c = ' ')

/-- No two adjacent characters are both spaces. -/
def noDoubleSpace : List Char → Bool
  | c :: d :: t => !(c = ' ' && d = ' ') && noDoubleSpace (d :: t)
  | _ => true

def headNotSpace : List Char → Bool
  | [] => true
  | c :: _ => !(isPySpace c)

/-- Course names on which the bots' `replace(' ', '_')` and the scheduler's
`re.sub(r"\s+", "_", name.strip())` should coincide: whitespace only as
single interior spaces. -/
def goodCourseName (l : List Char) : Bool :=
  pyWsOnlySpace l && noDoubleSpace l && headNotSpace l && headNotSpace l.reverse

/-! ## Timetable store and session resolver -/

/-- One timetable row (CSV columns `CourseName,Day,Time`). -/
structure Row where
  courseName : String
  day : String
  time : String
deriving DecidableEq, Repr

/-- Python `str.split(sep)` with a non-empty separator, with explicit fuel so
the recursion is structural (the fuel is always at least the input length, so
it never runs out). -/
def splitOnAuxL (sep : List Char) : Nat → List Char → List Char → List (List Char)
  | _, acc, [] => [acc.reverse]
  | 0, acc, l => [acc.reverse ++ l]
  | fuel + 1, acc, c :: rest =>
    if sep.isPrefixOf (c :: rest) then
      acc.reverse :: splitOnAuxL sep fuel [] ((c :: rest).drop sep.length)
    else
      splitOnAuxL sep fuel (c :: acc) rest

def splitOnL (sep l : List Char) : List (List Char) :=
  splitOnAuxL sep l.length [] l

def charDigit (c : Char) : Nat := c.toNat - '0'.toNat

def digitsToNat (l : List Char) : Nat := l.foldl (fun a c => a * 10 + charDigit c) 0

/-- `datetime.strptime(s, "%H:%M")` restricted to the hour/minute fields:
one or two digits for each component, hour 0–23, minute 0–59; the result is
the minute-of-day.  `none` where `strptime` raises `ValueError` (which
`get_current_class` turns into skipping the row). -/
def parseHMCore (l : List Char) : Option Nat :=
  match splitOnL (":".toList) l with
  | [h, m] =>
    if h ≠ [] ∧ h.length ≤ 2 ∧ m ≠ [] ∧ m.length ≤ 2
        ∧ h.all Char.isDigit ∧ m.all Char.isDigit then
      let hv := digitsToNat h
      let mv := digitsToNat m
      if hv ≤ 23 ∧ mv ≤ 59 then some (hv * 60 + mv) else none
    else none
  | _ => none

def parseHM (s : String) : Option Nat := parseHMCore s.toList

/-- The start of a row's window in seconds-of-day:
`entry["Time"].split(" - ")` must yield exactly two parts (otherwise the
unpacking raises and the row is skipped), then the first part is stripped
(`start_str.strip()`) and parsed with `%H:%M`. -/
def rowStartSec (row : Row) : Option Nat :=
  match splitOnL (" - ".toList) row.time.toList with
  | [s, _e] => (parseHMCore (pyStrip s)).map (· * 60)
  | _ => none

/-- Does `now` fall in `[start, start + 15 min]` of a row scheduled today?
(`start_time <= now <= start_time + timedelta(minutes=15)` in the source;
rows whose `Day` differs from today or whose time fails to parse never
qualify.) -/
def rowQualifies (today : String) (nowSec : Nat) (row : Row) : Bool :=
  row.day = today &&
    match rowStartSec row with
    | some st => decide (st ≤ nowSec ∧ nowSec ≤ st + 15 * 60)
    | none => false

/-- `spda.get_current_class`: the first row in file order whose window
contains `now`, if any. -/
def get_current_class (today : String) (nowSec : Nat) : List Row → Option String
  | [] => none
  | r :: rest =>
    if rowQualifies today nowSec r then some r.courseName
    else get_current_class today nowSec rest

/-! ## Schedule-drift corrector -/

def lowerStr (s : String) : String := String.mk (s.toList.map Char.toLower)

/-- Python `a.startswith(b)` (checked on the character lists so that it
evaluates by kernel reduction). -/
def strStartsWith (s p : String) : Bool := p.toList.isPrefixOf s.toList

/-- `row["CourseName"].lower().startswith(course_name.lower())`. -/
def matchesCourse (courseName : String) (row : Row) : Bool :=
  strStartsWith (lowerStr row.courseName) (lowerStr courseName)

/-- One row of `spda.update_schedule_time`'s read loop: returns the possibly
rewritten row and whether the `updated` accumulator was set for this row. -/
def updRow (courseName newTime : String) (row : Row) : Row × Bool :=
  if matchesCourse courseName row then
    if row.time ≠ newTime then ({ row with time := newTime }, true)
    else (row, false)
  else (row, false)

/-- `spda.update_schedule_time` as a pure function: the rewritten row list and
the `updated` flag.  The CSV rewrite and the notification both happen exactly
when the flag is `true`. -/
def update_schedule_time (courseName newTime : String) : List Row → List Row × Bool
  | [] => ([], false)
  | r :: rest =>
    let p := updRow courseName newTime r
    let q := update_schedule_time courseName newTime rest
    (p.1 :: q.1, p.2 || q.2)

/-! ## Durable flag store

One list of file names stands for both `flags/` (pause flags) and
`flags/attendance/` (success/retry flags); the two key families are
prefix-disjoint, so nothing is conflated. -/

abbrev Store := List String

/-- `open(path, "w")` on a flag file: presence-idempotent creation. -/
def createFlag (s : Store) (k : String) : Store :=
  if k ∈ s then s else k :: s

/-- `os.remove` on a flag file (absence-idempotent in the model; every call
site wraps the removal in `try/except`). -/
def removeFlag (s : Store) (k : String) : Store :=
  s.filter (fun x => decide (x ≠ k))

def pauseUserKey (u : String) : String :=
  "pause_user_" ++ u ++ ".flag"

def pauseOnceKey (u c : String) : String :=
  "pause_once_" ++ u ++ "_" ++ safeName c ++ ".flag"

/-- The one-time pause flag name the bots create
(`f"pause_once_{username}_{next_class.replace(' ','_')}.flag"`). -/
def botPauseOnceKey (u c : String) : String :=
  "pause_once_" ++ u ++ "_" ++ botSafeName c ++ ".flag"

def successKey (u c date : String) : String :=
  "success_" ++ u ++ "_" ++ safeName c ++ "_" ++ date ++ ".flag"

/-- `base = f"retry_{username}_{_safe(course_name)}_{today}_attempt_"`. -/
def retryBase (u c date : String) : String :=
  "retry_" ++ u ++ "_" ++ safeName c ++ "_" ++ date ++ "_attempt_"

def retryKey (u c date : String) (n : Nat) : String :=
  retryBase u c date ++ (Nat.repr n ++ ".flag")

/-! ## Pause manager and attempt tracker -/

/-- `spda.is_paused`: indefinite pause first (no side effect); otherwise a
present one-time pause flag is deleted (consumed) and reported. -/
def is_paused (u c : String) (s : Store) : Bool × Store :=
  if pauseUserKey u ∈ s then (true, s)
  else if pauseOnceKey u c ∈ s then (true, removeFlag s (pauseOnceKey u c))
  else (false, s)

/-- `spda.has_attended_today`. -/
def has_attended_today (u c date : String) (s : Store) : Bool :=
  successKey u c date ∈ s

/-- `spda.get_current_attempt`: probe `attempt_2` then `attempt_1`;
3 means "stop (already used two retries)". -/
def get_current_attempt (u c date : String) (s : Store) : Nat :=
  if retryKey u c date 2 ∈ s then 3
  else if retryKey u c date 1 ∈ s then 2
  else 1

/-- Modelled from the spec (§4.2, for comparison only): "probing for the
highest-numbered retry flag present (checked in descending order 3→2→1;
absence of all ⇒ n = 1). Finding flag for attempt 3 present ⇒ treat as
n = 4 (exhausted)". -/
def specGetCurrentAttempt (u c date : String) (s : Store) : Nat :=
  if retryKey u c date 3 ∈ s then 4
  else if retryKey u c date 2 ∈ s then 3
  else if retryKey u c date 1 ∈ s then 2
  else 1

/-- `spda._clear_retry_flags`: remove retry flags for attempts 1 and 2. -/
def clear_retry_flags (u c date : String) (s : Store) : Store :=
  removeFlag (removeFlag s (retryKey u c date 1)) (retryKey u c date 2)

/-- `sub.toList <:+: l` as a decidable check: does `sub` occur as a
contiguous substring (Python `in` on `str`)? -/
def containsSub (sub s : String) : Bool :=
  decide (sub.toList <:+: s.toList)

/-- The deletion predicate of `spda.cleanup_old_flags`:
`filename.startswith(("success_", "retry_")) and today_suffix not in filename`
with `today_suffix = "_" + today`. -/
def isStaleFlag (today f : String) : Bool :=
  (strStartsWith f "success_" || strStartsWith f "retry_") && !(containsSub ("_" ++ today) f)

/-- `spda.cleanup_old_flags`: delete every stale flag, keep the rest. -/
def cleanup_old_flags (today : String) (s : Store) : Store :=
  s.filter (fun f => !(isStaleFlag today f))

/-! ## Site Automation Actor contract and dispatch transition -/

/-- The three-way result of `spda.login_and_attend` as seen by the scheduler:
the coroutine returns `True` (attendance submitted), returns `False`
(unrecoverable login failure) or raises (everything else, including
exceptions the actor did not classify — `limited_login_and_attend` catches
every `Exception`). -/
inductive Outcome where
  | success
  | loginRejected
  | exc (reason : String)
deriving DecidableEq, Repr

structure AttemptResult where
  store : Store
  notes : List String
  dispatched : Bool
deriving DecidableEq, Repr

/-- `spda.limited_login_and_attend` for a single attempt: the guard
`attempt > 2` skips without invoking the actor; on success the success flag
is written and retry flags cleared; an unrecoverable login failure only
notifies; a raised exception writes this attempt's retry flag, removes the
previous attempt's flag, and notifies on attempts 1 and 2. -/
def limited_login_and_attend (u c date : String) (attempt : Nat) (o : Outcome)
    (s : Store) : AttemptResult :=
  if attempt > 2 then ⟨s, [], false⟩
  else
    match o with
    | .success =>
      let s1 := createFlag s (successKey u c date)
      ⟨clear_retry_flags u c date s1,
       ["✅ " ++ c ++ " attendance submitted for " ++ u ++ "."], true⟩
    | .loginRejected =>
      ⟨s, ["❌ Login failed for " ++ u ++ ". Please recheck credentials."], true⟩
    | .exc reason =>
      let s1 := createFlag s (retryKey u c date attempt)
      let s2 := if attempt > 1 then removeFlag s1 (retryKey u c date (attempt - 1)) else s1
      let notes :=
        if attempt = 1 then ["ℹ️ " ++ reason ++ " (Attempt 1/2). Will try again."]
        else if attempt = 2 then
          ["❌ Failed to attend " ++ c ++ " after 2 attempts. Last error: " ++ reason]
        else []
      ⟨s2, notes, true⟩

/-! ## Dispatch orchestrator (`spda.run_main`) -/

inductive Decision where
  | noSchedule
  | noClass
  | attended (c : String)
  | paused (c : String)
  | exhausted (c : String)
  | dispatch (c : String) (attempt : Nat)
deriving DecidableEq, Repr

structure User where
  username : String
  scheduleRows : Option (List Row)
deriving DecidableEq, Repr

/-- The per-user eligibility chain of `run_main`'s loop body: missing
schedule file, no current class, success flag for today, pause check (which
may consume a one-time pause flag), then the attempt-budget gate
(`current_attempt > 2`). -/
def evalUser (today date : String) (nowSec : Nat) (u : User) (s : Store) :
    Decision × Store × List String :=
  match u.scheduleRows with
  | none => (.noSchedule, s, [])
  | some rows =>
    match get_current_class today nowSec rows with
    | none => (.noClass, s, [])
    | some c =>
      if has_attended_today u.username c date s then (.attended c, s, [])
      else
        let p := is_paused u.username c s
        if p.1 then (.paused c, p.2, ["⏸️ Skipped attendance for " ++ c ++ " (paused)."])
        else
          let n := get_current_attempt u.username c date p.2
          if n > 2 then (.exhausted c, p.2, [])
          else (.dispatch c n, p.2, [])

/-- The state of one account's schedule file as `run_main` encounters it:
absent (`os.path.exists` false — print and continue), present but unreadable
(`load_schedule` raises, e.g. `UnicodeDecodeError` on invalid UTF-8 or
`csv.Error` on NUL bytes — `run_main` has no try/except around it), or
successfully loaded rows. -/
inductive ScheduleFile where
  | missing
  | unreadable (err : String)
  | rows (rows : List Row)
deriving DecidableEq, Repr

def ScheduleFile.readable : ScheduleFile → Bool
  | .unreadable _ => false
  | _ => true

/-- One account as `run_main` sees it: credentials and notification target
are opaque; what matters is the username (flag namespace) and the schedule
file. -/
structure Account where
  username : String
  schedule : ScheduleFile
deriving DecidableEq, Repr

/-- The result of `run_main`'s evaluation loop: either every account was
evaluated, or an unreadable schedule file raised at some account — the
decisions made so far are recorded, and the accounts after the raising one
were never evaluated. -/
inductive EvalResult where
  | ok (decisions : List (String × Decision)) (store : Store) (notes : List String)
  | aborted (err : String) (decisions : List (String × Decision)) (store : Store)
      (notes : List String)
deriving DecidableEq, Repr

/-- Sequential evaluation of all accounts (in `run_main` this whole loop runs
before any created task is awaited, so it happens strictly before dispatch).
An unreadable schedule file propagates: the loop stops at that account. -/
def evalAccounts (today date : String) (nowSec : Nat) :
    List Account → Store → EvalResult
  | [], s => .ok [] s []
  | a :: rest, s =>
    match a.schedule with
    | .unreadable err => .aborted err [] s []
    | .missing =>
      let r := evalUser today date nowSec ⟨a.username, none⟩ s
      match evalAccounts today date nowSec rest r.2.1 with
      | .ok ds st ns => .ok ((a.username, r.1) :: ds) st (r.2.2 ++ ns)
      | .aborted e ds st ns => .aborted e ((a.username, r.1) :: ds) st (r.2.2 ++ ns)
    | .rows rows =>
      let r := evalUser today date nowSec ⟨a.username, some rows⟩ s
      match evalAccounts today date nowSec rest r.2.1 with
      | .ok ds st ns => .ok ((a.username, r.1) :: ds) st (r.2.2 ++ ns)
      | .aborted e ds st ns => .aborted e ((a.username, r.1) :: ds) st (r.2.2 ++ ns)

/-- The dispatch stage: every `dispatch` decision invokes the actor, whose
result is given by the outcome oracle (a function of username and course). -/
def dispatchPhase (date : String) (oracle : String → String → Outcome) :
    List (String × Decision) → Store → Store × List String
  | [], s => (s, [])
  | (u, Decision.dispatch c n) :: rest, s =>
    let r := limited_login_and_attend u c date n (oracle u c) s
    let q := dispatchPhase date oracle rest r.store
    (q.1, r.notes ++ q.2)
  | _ :: rest, s => dispatchPhase date oracle rest s

structure PassResult where
  decisions : List (String × Decision)
  store : Store
  notes : List String
deriving DecidableEq, Repr

/-- What one invocation of `spda.run_main` does overall: either the pass
completes, or an uncaught exception from `load_schedule` aborts it — the
exception is raised inside the evaluation loop, before `asyncio.gather`, so
none of the created dispatch tasks is ever awaited (no attempt runs, not
even for accounts already marked for dispatch). -/
inductive PassOutcome where
  | completed (r : PassResult)
  | aborted (err : String) (decisions : List (String × Decision)) (store : Store)
      (notes : List String)
deriving DecidableEq, Repr

/-- One evaluation pass (`spda.run_main`): garbage-collect stale flags, then
evaluate every account, then — only if no schedule load raised — run the
dispatched attempts. -/
def run_main (today date : String) (nowSec : Nat) (oracle : String → String → Outcome)
    (accounts : List Account) (s : Store) : PassOutcome :=
  match evalAccounts today date nowSec accounts (cleanup_old_flags date s) with
  | .ok ds st ns =>
    let d := dispatchPhase date oracle ds st
    .completed ⟨ds, d.1, ns ++ d.2⟩
  | .aborted e ds st ns => .aborted e ds st ns

/-- One tracker-level evaluation cycle for a fixed (account, course, day):
the attempt-budget gate of `run_main` (skip when `current_attempt > 2`)
followed by the dispatched attempt; the boolean reports whether the actor
was invoked. -/
def passStep (u c date : String) (o : Outcome) (s : Store) : Store × Bool :=
  let n := get_current_attempt u c date s
  if n > 2 then (s, false)
  else ((limited_login_and_attend u c date n o s).store, true)

/-! ## Store and key lemmas -/

theorem mem_createFlag_iff {s : Store} {k x : String} :
    x ∈ createFlag s k ↔ x = k ∨ x ∈ s := by
  unfold createFlag
  by_cases h : k ∈ s
  · simp only [if_pos h]
    constructor
    · exact Or.inr
    · rintro (rfl | hx)
      · exact h
      · exact hx
  · simp [if_neg h, List.mem_cons]

theorem mem_removeFlag_iff {s : Store} {k x : String} :
    x ∈ removeFlag s k ↔ x ∈ s ∧ x ≠ k := by
  unfold removeFlag
  simp [List.mem_filter]

theorem not_mem_removeFlag_self {s : Store} {k : String} : k ∉ removeFlag s k := by
  intro h
  exact (mem_removeFlag_iff.mp h).2 rfl

theorem str_append_right_cancel {p a b : String} (h : p ++ a = p ++ b) : a = b := by
  have hd := congrArg String.data h
  rw [String.data_append, String.data_append] at hd
  exact String.ext (List.append_cancel_left hd)

theorem retryKey_one_ne_two (u c d : String) : retryKey u c d 1 ≠ retryKey u c d 2 := by
  intro h
  have h2 : (Nat.repr 1 ++ ".flag" : String) = Nat.repr 2 ++ ".flag" :=
    str_append_right_cancel h
  exact absurd h2 (by decide)

theorem successKey_ne_retryKey (u c d u' c' d' : String) (n : Nat) :
    successKey u c d ≠ retryKey u' c' d' n := by
  intro h
  have hd := congrArg String.data h
  simp only [successKey, retryKey, retryBase, String.data_append] at hd
  simp only [List.cons_append, List.append_assoc] at hd
  have h1 := congrArg List.head? hd
  simp only [List.head?_cons] at h1
  exact absurd h1 (by decide)

theorem get_current_attempt_eq_one {u c d : String} {s : Store}
    (h2 : retryKey u c d 2 ∉ s) (h1 : retryKey u c d 1 ∉ s) :
    get_current_attempt u c d s = 1 := by
  unfold get_current_attempt
  rw [if_neg h2, if_neg h1]

theorem get_current_attempt_eq_two {u c d : String} {s : Store}
    (h2 : retryKey u c d 2 ∉ s) (h1 : retryKey u c d 1 ∈ s) :
    get_current_attempt u c d s = 2 := by
  unfold get_current_attempt
  rw [if_neg h2, if_pos h1]

theorem get_current_attempt_eq_three {u c d : String} {s : Store}
    (h2 : retryKey u c d 2 ∈ s) :
    get_current_attempt u c d s = 3 := by
  unfold get_current_attempt
  rw [if_pos h2]

theorem passStep_exc_one {u c d r : String} {s : Store}
    (h2 : retryKey u c d 2 ∉ s) (h1 : retryKey u c d 1 ∉ s) :
    passStep u c d (.exc r) s = (createFlag s (retryKey u c d 1), true) := by
  unfold passStep
  rw [get_current_attempt_eq_one h2 h1]
  simp [limited_login_and_attend]

theorem passStep_exc_two {u c d r : String} {s : Store}
    (h2 : retryKey u c d 2 ∉ s) (h1 : retryKey u c d 1 ∈ s) :
    passStep u c d (.exc r) s
      = (removeFlag (createFlag s (retryKey u c d 2)) (retryKey u c d 1), true) := by
  unfold passStep
  rw [get_current_attempt_eq_two h2 h1]
  simp [limited_login_and_attend]

theorem passStep_exhausted {u c d : String} {o : Outcome} {s : Store}
    (h2 : retryKey u c d 2 ∈ s) :
    passStep u c d o s = (s, false) := by
  unfold passStep
  rw [get_current_attempt_eq_three h2]
  simp

/-- C1 counterexample: the claim's reading rule is wrong on the code.  With
exactly the attempt-3 retry flag present, the claim says the state is
exhausted (`n = 4`) and the account is skipped without dispatching; the code
never probes an attempt-3 flag (it probes 2 then 1), computes attempt 1, and
dispatches. -/
theorem attempt_probe_counterexample :
    get_current_attempt "alice" "Math" "2024-05-06"
        [retryKey "alice" "Math" "2024-05-06" 3] = 1
    ∧ specGetCurrentAttempt "alice" "Math" "2024-05-06"
        [retryKey "alice" "Math" "2024-05-06" 3] = 4
    ∧ (passStep "alice" "Math" "2024-05-06" (.exc "timeout")
        [retryKey "alice" "Math" "2024-05-06" 3]).2 = true := by
  refine ⟨by decide, by decide, by decide⟩

/-- C1 (amended): for every account, course and day, the attempt number is
determined by probing retry flags in descending order 2→1 (absence of both
means attempt 1), a present attempt-2 flag means the state is exhausted
(`n = 3`) and the account is skipped without dispatching, and up to 2
retriable attempts per account-course-day are performed: starting from a
state with no retry flags, two consecutive retriable failures advance the
attempt number 1 → 2 → 3, each writing its retry flag and deleting the
previous one, and the third evaluation skips without invoking the actor. -/
theorem attempt_budget_two_attempts (u c d r1 r2 : String) (o : Outcome) (s : Store)
    (h1 : retryKey u c d 1 ∉ s) (h2 : retryKey u c d 2 ∉ s) :
    get_current_attempt u c d s = 1
    ∧ (passStep u c d (.exc r1) s).2 = true
    ∧ retryKey u c d 1 ∈ (passStep u c d (.exc r1) s).1
    ∧ retryKey u c d 2 ∉ (passStep u c d (.exc r1) s).1
    ∧ get_current_attempt u c d (passStep u c d (.exc r1) s).1 = 2
    ∧ (passStep u c d (.exc r2) (passStep u c d (.exc r1) s).1).2 = true
    ∧ retryKey u c d 2 ∈ (passStep u c d (.exc r2) (passStep u c d (.exc r1) s).1).1
    ∧ retryKey u c d 1 ∉ (passStep u c d (.exc r2) (passStep u c d (.exc r1) s).1).1
    ∧ get_current_attempt u c d
        (passStep u c d (.exc r2) (passStep u c d (.exc r1) s).1).1 = 3
    ∧ passStep u c d o (passStep u c d (.exc r2) (passStep u c d (.exc r1) s).1).1
        = ((passStep u c d (.exc r2) (passStep u c d (.exc r1) s).1).1, false) := by
  have e1 : passStep u c d (.exc r1) s = (createFlag s (retryKey u c d 1), true) :=
    passStep_exc_one h2 h1
  have m1 : retryKey u c d 1 ∈ (passStep u c d (.exc r1) s).1 := by
    rw [e1]; exact mem_createFlag_iff.mpr (Or.inl rfl)
  have m2 : retryKey u c d 2 ∉ (passStep u c d (.exc r1) s).1 := by
    rw [e1]
    intro hm
    rcases mem_createFlag_iff.mp hm with he | hs
    · exact retryKey_one_ne_two u c d he.symm
    · exact h2 hs
  have e2 : passStep u c d (.exc r2) (passStep u c d (.exc r1) s).1
      = (removeFlag (createFlag (passStep u c d (.exc r1) s).1 (retryKey u c d 2))
          (retryKey u c d 1), true) :=
    passStep_exc_two m2 m1
  have m3 : retryKey u c d 2 ∈ (passStep u c d (.exc r2) (passStep u c d (.exc r1) s).1).1 := by
    rw [e2]
    exact mem_removeFlag_iff.mpr
      ⟨mem_createFlag_iff.mpr (Or.inl rfl), (retryKey_one_ne_two u c d).symm⟩
  have m4 : retryKey u c d 1 ∉ (passStep u c d (.exc r2) (passStep u c d (.exc r1) s).1).1 := by
    rw [e2]; exact not_mem_removeFlag_self
  refine ⟨get_current_attempt_eq_one h2 h1, by rw [e1], m1, m2,
    get_current_attempt_eq_two m2 m1, by rw [e2], m3, m4,
    get_current_attempt_eq_three m3, passStep_exhausted m3⟩

/-- Witness for the amended C1 theorem at a concrete fresh state. -/
theorem attempt_budget_two_attempts_witness :
    retryKey "alice" "Math" "2024-05-06" 1 ∉ ([] : Store)
    ∧ retryKey "alice" "Math" "2024-05-06" 2 ∉ ([] : Store)
    ∧ get_current_attempt "alice" "Math" "2024-05-06" ([] : Store) = 1 := by
  refine ⟨by decide, by decide, ?_⟩
  exact (attempt_budget_two_attempts "alice" "Math" "2024-05-06" "t1" "t2"
    Outcome.success [] (by decide) (by decide)).1

/-- C2 counterexample: a retriable failure on attempt 2 is not silent — the
code sends the final-failure notification, contradicting the claimed
"attempt 2 failures are silent" policy. -/
theorem attempt_two_notification_counterexample :
    (limited_login_and_attend "alice" "Math" "2024-05-06" 2 (.exc "timeout") []).notes
      = ["❌ Failed to attend Math after 2 attempts. Last error: timeout"] := by
  decide

/-- C2 (amended): for every dispatched attempt ending in a retriable failure,
the user is notified both when the failure occurs on attempt 1 and when it
occurs on attempt 2 (the final attempt); attempts beyond 2 are never
dispatched and produce no notification at all. -/
theorem retriable_failure_notification_policy (u c d r : String) (s : Store) :
    (limited_login_and_attend u c d 1 (.exc r) s).notes.length = 1
    ∧ (limited_login_and_attend u c d 2 (.exc r) s).notes.length = 1
    ∧ ∀ n, 2 < n →
        limited_login_and_attend u c d n (.exc r) s = ⟨s, [], false⟩ := by
  refine ⟨by simp [limited_login_and_attend], by simp [limited_login_and_attend], ?_⟩
  intro n hn
  unfold limited_login_and_attend
  rw [if_pos hn]

/-- Witness for the amended C2 theorem at concrete inputs. -/
theorem retriable_failure_notification_policy_witness :
    2 < 3
    ∧ limited_login_and_attend "alice" "Math" "2024-05-06" 3 (.exc "timeout") []
        = ⟨[], [], false⟩ :=
  ⟨by decide,
   (retriable_failure_notification_policy "alice" "Math" "2024-05-06" "timeout" []).2.2
     3 (by decide)⟩

theorem get_current_class_append_first {today : String} {nowSec : Nat}
    {pre : List Row} {r : Row} {rest : List Row}
    (hpre : ∀ r' ∈ pre, rowQualifies today nowSec r' = false)
    (hr : rowQualifies today nowSec r = true) :
    get_current_class today nowSec (pre ++ r :: rest) = some r.courseName := by
  induction pre with
  | nil => simp [get_current_class, hr]
  | cons a t ih =>
    have ha : rowQualifies today nowSec a = false := hpre a (List.mem_cons_self a t)
    show get_current_class today nowSec (a :: (t ++ r :: rest)) = some r.courseName
    unfold get_current_class
    rw [ha]
    exact ih (fun r' h => hpre r' (List.mem_cons_of_mem a h))

/-- C3 counterexample: when two rows qualify, the code returns the first one
in file order, not the one with the earliest start time.  At Monday 09:12
both rows qualify, row "B" starts earlier (09:00 < 09:10), yet the list
`[A, B]` yields "A" while the swapped list yields "B" — the result depends on
file order and is not the earliest-start row. -/
theorem current_class_order_counterexample :
    rowQualifies "Senin" (9*3600 + 12*60) ⟨"A", "Senin", "09:10 - 10:00"⟩ = true
    ∧ rowQualifies "Senin" (9*3600 + 12*60) ⟨"B", "Senin", "09:00 - 10:00"⟩ = true
    ∧ rowStartSec ⟨"B", "Senin", "09:00 - 10:00"⟩ = some (9*3600)
    ∧ rowStartSec ⟨"A", "Senin", "09:10 - 10:00"⟩ = some (9*3600 + 10*60)
    ∧ get_current_class "Senin" (9*3600 + 12*60)
        [⟨"A", "Senin", "09:10 - 10:00"⟩, ⟨"B", "Senin", "09:00 - 10:00"⟩] = some "A"
    ∧ get_current_class "Senin" (9*3600 + 12*60)
        [⟨"B", "Senin", "09:00 - 10:00"⟩, ⟨"A", "Senin", "09:10 - 10:00"⟩] = some "B" := by
  refine ⟨by decide, by decide, by decide, by decide, by decide, by decide⟩

/-- C3 (amended): among today's rows satisfying
`startTime ≤ now ≤ startTime + 15 minutes`, `get_current_class` returns the
first qualifying row in file order (when several rows qualify, the earliest
listed one wins, regardless of start times), and returns none when no row
qualifies; for the row `Math,Monday,09:00 - 10:30` it returns `Math` at
Monday 09:05 and none at 09:16. -/
theorem current_class_first_qualifying (today : String) (nowSec : Nat)
    (pre : List Row) (r : Row) (rest : List Row)
    (hpre : ∀ r' ∈ pre, rowQualifies today nowSec r' = false)
    (hr : rowQualifies today nowSec r = true) :
    get_current_class today nowSec (pre ++ r :: rest) = some r.courseName
    ∧ (∀ rows : List Row, (∀ r' ∈ rows, rowQualifies today nowSec r' = false) →
        get_current_class today nowSec rows = none)
    ∧ get_current_class "Senin" (9*3600 + 5*60)
        [⟨"Math", "Senin", "09:00 - 10:30"⟩] = some "Math"
    ∧ get_current_class "Senin" (9*3600 + 16*60)
        [⟨"Math", "Senin", "09:00 - 10:30"⟩] = none := by
  refine ⟨get_current_class_append_first hpre hr, ?_, by decide, by decide⟩
  intro rows hrows
  induction rows with
  | nil => rfl
  | cons a t ih =>
    unfold get_current_class
    rw [hrows a (List.mem_cons_self a t)]
    exact ih (fun r' h => hrows r' (List.mem_cons_of_mem a h))

/-- Witness for the amended C3 theorem: a non-qualifying Tuesday row before
the qualifying Monday Math row. -/
theorem current_class_first_qualifying_witness :
    (∀ r' ∈ [(⟨"Phys", "Selasa", "09:00 - 10:30"⟩ : Row)],
        rowQualifies "Senin" (9*3600 + 5*60) r' = false)
    ∧ rowQualifies "Senin" (9*3600 + 5*60) ⟨"Math", "Senin", "09:00 - 10:30"⟩ = true
    ∧ get_current_class "Senin" (9*3600 + 5*60)
        ([⟨"Phys", "Selasa", "09:00 - 10:30"⟩] ++ ⟨"Math", "Senin", "09:00 - 10:30"⟩ :: [])
        = some "Math" := by
  refine ⟨by decide, by decide, ?_⟩
  exact (current_class_first_qualifying "Senin" (9*3600 + 5*60)
    [⟨"Phys", "Selasa", "09:00 - 10:30"⟩] ⟨"Math", "Senin", "09:00 - 10:30"⟩ []
    (by decide) (by decide)).1

/-- C4 counterexample: an unrecoverable login failure persists nothing, so
the very next pass evaluates the same account as attempt 1 and dispatches it
again even though the credentials were not fixed — contradicting "schedules
no further attempts for that account in this or any future pass until
credentials are fixed externally". -/
theorem login_rejected_redispatch_counterexample :
    (limited_login_and_attend "alice" "Math" "2024-05-06" 1 .loginRejected []).store = []
    ∧ evalUser "Senin" "2024-05-06" (9*3600 + 5*60)
        ⟨"alice", some [⟨"Math", "Senin", "09:00 - 10:30"⟩]⟩ []
        = (.dispatch "Math" 1, [], []) := by
  refine ⟨by decide, by decide⟩

/-- C4 (amended): when the actor reports an unrecoverable login failure, the
core writes no flag at all for that account-course-day (the store is
unchanged), notifies the user immediately with exactly one message, and
dispatches nothing further for that account within the current pass; however
nothing is persisted, so any later pass whose eligibility gates pass will
evaluate the account as attempt 1 and dispatch it again. -/
theorem login_rejected_terminal (u c d : String) (n : Nat) (s : Store) (hn : n ≤ 2) :
    limited_login_and_attend u c d n .loginRejected s
      = ⟨s, ["❌ Login failed for " ++ u ++ ". Please recheck credentials."], true⟩
    ∧ ∀ (today : String) (nowSec : Nat) (rows : List Row) (c' : String),
        get_current_class today nowSec rows = some c' →
        successKey u c' d ∉ s →
        pauseUserKey u ∉ s →
        pauseOnceKey u c' ∉ s →
        retryKey u c' d 1 ∉ s →
        retryKey u c' d 2 ∉ s →
        evalUser today d nowSec ⟨u, some rows⟩ s = (.dispatch c' 1, s, []) := by
  constructor
  · unfold limited_login_and_attend
    rw [if_neg (by omega)]
  · intro today nowSec rows c' hcc hsucc hpu hpo hr1 hr2
    unfold evalUser
    dsimp only
    rw [hcc]
    dsimp only
    have hatt : has_attended_today u c' d s = false := by
      simp [has_attended_today, hsucc]
    rw [hatt]
    have hp : is_paused u c' s = (false, s) := by
      unfold is_paused
      rw [if_neg hpu, if_neg hpo]
    rw [hp]
    have hn1 : get_current_attempt u c' d s = 1 := get_current_attempt_eq_one hr2 hr1
    simp [hn1]

/-- Witness for the amended C4 theorem at concrete inputs. -/
theorem login_rejected_terminal_witness :
    (1 : Nat) ≤ 2
    ∧ limited_login_and_attend "alice" "Math" "2024-05-06" 1 .loginRejected []
        = ⟨[], ["❌ Login failed for " ++ "alice" ++ ". Please recheck credentials."], true⟩
    ∧ evalUser "Senin" "2024-05-06" (9*3600 + 5*60)
        ⟨"alice", some [⟨"Math", "Senin", "09:00 - 10:30"⟩]⟩ []
        = (.dispatch "Math" 1, [], []) :=
  ⟨by decide,
   (login_rejected_terminal "alice" "Math" "2024-05-06" 1 [] (by decide)).1,
   (login_rejected_terminal "alice" "Math" "2024-05-06" 1 [] (by decide)).2
     "Senin" (9*3600 + 5*60) [⟨"Math", "Senin", "09:00 - 10:30"⟩] "Math"
     (by decide) (by decide) (by decide) (by decide) (by decide) (by decide)⟩

/-- C5 counterexample: on success the code clears only the attempt-1 and
attempt-2 retry flags — an attempt-3 retry flag (which the claim says is also
deleted) survives the success transition. -/
theorem success_clear_counterexample :
    retryKey "alice" "Math" "2024-05-06" 3
      ∈ (limited_login_and_attend "alice" "Math" "2024-05-06" 1 .success
          [retryKey "alice" "Math" "2024-05-06" 3]).store
    ∧ successKey "alice" "Math" "2024-05-06"
      ∈ (limited_login_and_attend "alice" "Math" "2024-05-06" 1 .success
          [retryKey "alice" "Math" "2024-05-06" 3]).store := by
  refine ⟨by decide, by decide⟩

/-- C5 (amended): on terminal success the core writes a success flag for
today and deletes the retry flags for attempts 1 and 2 for today (the only
attempts the code ever writes), leaving every other key untouched; and
whenever a success flag dated today exists for the current session the
account is skipped for the rest of the day regardless of pause and attempt
state. -/
theorem success_flag_and_daily_skip (u c d : String) (n : Nat) (s : Store) (hn : n ≤ 2) :
    successKey u c d ∈ (limited_login_and_attend u c d n .success s).store
    ∧ retryKey u c d 1 ∉ (limited_login_and_attend u c d n .success s).store
    ∧ retryKey u c d 2 ∉ (limited_login_and_attend u c d n .success s).store
    ∧ (∀ k ∈ s, k ≠ retryKey u c d 1 → k ≠ retryKey u c d 2 →
        k ∈ (limited_login_and_attend u c d n .success s).store)
    ∧ ∀ (today d' : String) (nowSec : Nat) (uu : User) (rows : List Row)
        (c' : String) (s' : Store),
        uu.scheduleRows = some rows →
        get_current_class today nowSec rows = some c' →
        successKey uu.username c' d' ∈ s' →
        evalUser today d' nowSec uu s' = (.attended c', s', []) := by
  have est : (limited_login_and_attend u c d n .success s).store
      = removeFlag (removeFlag (createFlag s (successKey u c d)) (retryKey u c d 1))
          (retryKey u c d 2) := by
    unfold limited_login_and_attend clear_retry_flags
    rw [if_neg (by omega)]
  refine ⟨?_, ?_, ?_, ?_, ?_⟩
  · rw [est]
    exact mem_removeFlag_iff.mpr
      ⟨mem_removeFlag_iff.mpr
        ⟨mem_createFlag_iff.mpr (Or.inl rfl), successKey_ne_retryKey u c d u c d 1⟩,
       successKey_ne_retryKey u c d u c d 2⟩
  · rw [est]
    intro hm
    exact not_mem_removeFlag_self (mem_removeFlag_iff.mp hm).1
  · rw [est]
    exact not_mem_removeFlag_self
  · intro k hk hk1 hk2
    rw [est]
    exact mem_removeFlag_iff.mpr
      ⟨mem_removeFlag_iff.mpr ⟨mem_createFlag_iff.mpr (Or.inr hk), hk1⟩, hk2⟩
  · intro today d' nowSec uu rows c' s' hsr hcc hsk
    unfold evalUser
    rw [hsr]
    dsimp only
    rw [hcc]
    dsimp only
    have hatt : has_attended_today uu.username c' d' s' = true := by
      simp [has_attended_today, hsk]
    rw [hatt, if_pos rfl]

/-- Witness for the amended C5 theorem at concrete inputs. -/
theorem success_flag_and_daily_skip_witness :
    (1 : Nat) ≤ 2
    ∧ successKey "alice" "Math" "2024-05-06"
        ∈ (limited_login_and_attend "alice" "Math" "2024-05-06" 1 .success
            [retryKey "alice" "Math" "2024-05-06" 1]).store :=
  ⟨by decide,
   (success_flag_and_daily_skip "alice" "Math" "2024-05-06" 1
     [retryKey "alice" "Math" "2024-05-06" 1] (by decide)).1⟩

/-- C6: with no indefinite pause set, a present one-time pause flag makes
`is_paused` delete it and return true, and any subsequent call on the
resulting state returns false with the state unchanged — the flag is
consumed by at most one call. -/
theorem once_pause_consumed (u c : String) (s : Store)
    (hpu : pauseUserKey u ∉ s) (hpo : pauseOnceKey u c ∈ s) :
    is_paused u c s = (true, removeFlag s (pauseOnceKey u c))
    ∧ pauseOnceKey u c ∉ removeFlag s (pauseOnceKey u c)
    ∧ is_paused u c (removeFlag s (pauseOnceKey u c))
        = (false, removeFlag s (pauseOnceKey u c)) := by
  have h1 : is_paused u c s = (true, removeFlag s (pauseOnceKey u c)) := by
    unfold is_paused
    rw [if_neg hpu, if_pos hpo]
  have h2 : pauseOnceKey u c ∉ removeFlag s (pauseOnceKey u c) := not_mem_removeFlag_self
  have h3 : pauseUserKey u ∉ removeFlag s (pauseOnceKey u c) := by
    intro hm
    exact hpu (mem_removeFlag_iff.mp hm).1
  refine ⟨h1, h2, ?_⟩
  unfold is_paused
  rw [if_neg h3, if_neg h2]

/-- Witness for the C6 theorem at concrete inputs. -/
theorem once_pause_consumed_witness :
    pauseUserKey "alice" ∉ [pauseOnceKey "alice" "Math"]
    ∧ pauseOnceKey "alice" "Math" ∈ [pauseOnceKey "alice" "Math"]
    ∧ is_paused "alice" "Math" [pauseOnceKey "alice" "Math"]
        = (true, removeFlag [pauseOnceKey "alice" "Math"] (pauseOnceKey "alice" "Math")) :=
  ⟨by decide, by decide,
   (once_pause_consumed "alice" "Math" [pauseOnceKey "alice" "Math"]
     (by decide) (by decide)).1⟩

theorem evalAccounts_ok_of_readable (today date : String) (nowSec : Nat) :
    ∀ (accounts : List Account) (s : Store),
      (∀ x ∈ accounts, x.schedule.readable = true) →
      ∃ ds st ns, evalAccounts today date nowSec accounts s = .ok ds st ns
        ∧ ds.map Prod.fst = accounts.map Account.username := by
  intro accounts
  induction accounts with
  | nil => intro s _; exact ⟨[], s, [], rfl, rfl⟩
  | cons a rest ih =>
    intro s hall
    have hra := hall a (List.mem_cons_self a rest)
    have hrest := fun x hx => hall x (List.mem_cons_of_mem a hx)
    cases hsch : a.schedule with
    | unreadable e =>
      rw [hsch] at hra
      exact absurd hra (by simp [ScheduleFile.readable])
    | missing =>
      obtain ⟨ds, st, ns, heq, hmap⟩ :=
        ih (evalUser today date nowSec ⟨a.username, none⟩ s).2.1 hrest
      refine ⟨(a.username, (evalUser today date nowSec ⟨a.username, none⟩ s).1) :: ds, st,
        (evalUser today date nowSec ⟨a.username, none⟩ s).2.2 ++ ns, ?_, ?_⟩
      · show evalAccounts today date nowSec (a :: rest) s = _
        simp only [evalAccounts]
        rw [hsch]
        dsimp only
        rw [heq]
      · rw [List.map_cons, hmap, List.map_cons]
    | rows rows =>
      obtain ⟨ds, st, ns, heq, hmap⟩ :=
        ih (evalUser today date nowSec ⟨a.username, some rows⟩ s).2.1 hrest
      refine ⟨(a.username, (evalUser today date nowSec ⟨a.username, some rows⟩ s).1) :: ds, st,
        (evalUser today date nowSec ⟨a.username, some rows⟩ s).2.2 ++ ns, ?_, ?_⟩
      · show evalAccounts today date nowSec (a :: rest) s = _
        simp only [evalAccounts]
        rw [hsch]
        dsimp only
        rw [heq]
      · rw [List.map_cons, hmap, List.map_cons]

theorem evalAccounts_aborts (today date : String) (nowSec : Nat) (e : String)
    (a : Account) (ha : a.schedule = .unreadable e) :
    ∀ (pre rest : List Account) (s : Store),
      (∀ x ∈ pre, x.schedule.readable = true) →
      ∃ ds st ns,
        evalAccounts today date nowSec (pre ++ a :: rest) s = .aborted e ds st ns
        ∧ ds.map Prod.fst = pre.map Account.username := by
  intro pre
  induction pre with
  | nil =>
    intro rest s _
    refine ⟨[], s, [], ?_, rfl⟩
    show evalAccounts today date nowSec (a :: rest) s = _
    simp only [evalAccounts]
    rw [ha]
  | cons x pre' ih =>
    intro rest s hall
    have hrx := hall x (List.mem_cons_self x pre')
    have hrest := fun y hy => hall y (List.mem_cons_of_mem x hy)
    cases hsch : x.schedule with
    | unreadable e' =>
      rw [hsch] at hrx
      exact absurd hrx (by simp [ScheduleFile.readable])
    | missing =>
      obtain ⟨ds, st, ns, heq, hmap⟩ :=
        ih rest (evalUser today date nowSec ⟨x.username, none⟩ s).2.1 hrest
      refine ⟨(x.username, (evalUser today date nowSec ⟨x.username, none⟩ s).1) :: ds, st,
        (evalUser today date nowSec ⟨x.username, none⟩ s).2.2 ++ ns, ?_, ?_⟩
      · show evalAccounts today date nowSec (x :: (pre' ++ a :: rest)) s = _
        simp only [evalAccounts]
        rw [hsch]
        dsimp only
        rw [heq]
      · rw [List.map_cons, hmap, List.map_cons]
    | rows rows =>
      obtain ⟨ds, st, ns, heq, hmap⟩ :=
        ih rest (evalUser today date nowSec ⟨x.username, some rows⟩ s).2.1 hrest
      refine ⟨(x.username, (evalUser today date nowSec ⟨x.username, some rows⟩ s).1) :: ds, st,
        (evalUser today date nowSec ⟨x.username, some rows⟩ s).2.2 ++ ns, ?_, ?_⟩
      · show evalAccounts today date nowSec (x :: (pre' ++ a :: rest)) s = _
        simp only [evalAccounts]
        rw [hsch]
        dsimp only
        rw [heq]
      · rw [List.map_cons, hmap, List.map_cons]

/-- C7 counterexample: an error in one account's evaluation does propagate.
With the oracle irrelevant, a pass over `[alice (readable, eligible),
bob (unreadable schedule)]` aborts after evaluating alice: her decision is
`dispatch Math 1`, yet the store and notes show no attempt ever ran (the
exception is raised before `asyncio.gather`); and over
`[bob (unreadable), alice (readable, eligible)]` the pass aborts before
alice is even evaluated. -/
theorem load_error_propagation_counterexample :
    run_main "Senin" "2024-05-06" (9*3600 + 5*60) (fun _ _ => Outcome.success)
      [⟨"alice", .rows [⟨"Math", "Senin", "09:00 - 10:30"⟩]⟩,
       ⟨"bob", .unreadable "UnicodeDecodeError"⟩] []
      = .aborted "UnicodeDecodeError" [("alice", .dispatch "Math" 1)] [] []
    ∧ run_main "Senin" "2024-05-06" (9*3600 + 5*60) (fun _ _ => Outcome.success)
      [⟨"bob", .unreadable "UnicodeDecodeError"⟩,
       ⟨"alice", .rows [⟨"Math", "Senin", "09:00 - 10:30"⟩]⟩] []
      = .aborted "UnicodeDecodeError" [] [] [] := by
  refine ⟨by decide, by decide⟩

/-- C7 (amended): isolation holds at the dispatch stage but not at the
schedule-loading stage.  (1) When every account's schedule file is readable,
the pass completes, each account is evaluated exactly once in order, and the
decisions are identical under any two outcome oracles — one dispatch's
failure never changes which accounts are dispatched; (2) an exception raised
during a dispatched attempt (the model of an unclassified exception:
`limited_login_and_attend` catches every `Exception`) completes its flag
bookkeeping — the attempt's retry flag is in the resulting store — and
returns normally, so a dispatched attempt cannot crash the pass; (3) but an
unreadable schedule file (the uncaught `load_schedule` call) aborts the
pass: the accounts before it are evaluated and none after it, and no
dispatched attempt runs at all. -/
theorem pass_isolation_and_load_abort :
    (∀ (today date : String) (nowSec : Nat) (o o' : String → String → Outcome)
        (accounts : List Account) (s : Store),
      (∀ x ∈ accounts, x.schedule.readable = true) →
      ∃ ds st st' ns ns',
        run_main today date nowSec o accounts s = .completed ⟨ds, st, ns⟩
        ∧ run_main today date nowSec o' accounts s = .completed ⟨ds, st', ns'⟩
        ∧ ds.map Prod.fst = accounts.map Account.username)
    ∧ (∀ (u c d r : String) (s : Store),
      (retryKey u c d 1 ∈ (limited_login_and_attend u c d 1 (.exc r) s).store
        ∧ (limited_login_and_attend u c d 1 (.exc r) s).dispatched = true)
      ∧ (retryKey u c d 2 ∈ (limited_login_and_attend u c d 2 (.exc r) s).store
        ∧ (limited_login_and_attend u c d 2 (.exc r) s).dispatched = true))
    ∧ (∀ (today date : String) (nowSec : Nat) (o : String → String → Outcome)
        (pre rest : List Account) (a : Account) (e : String) (s : Store),
      (∀ x ∈ pre, x.schedule.readable = true) →
      a.schedule = .unreadable e →
      ∃ ds st ns,
        run_main today date nowSec o (pre ++ a :: rest) s = .aborted e ds st ns
        ∧ ds.map Prod.fst = pre.map Account.username) := by
  refine ⟨?_, ?_, ?_⟩
  · intro today date nowSec o o' accounts s hall
    obtain ⟨ds, st0, ns, heq, hmap⟩ :=
      evalAccounts_ok_of_readable today date nowSec accounts (cleanup_old_flags date s) hall
    refine ⟨ds, (dispatchPhase date o ds st0).1, (dispatchPhase date o' ds st0).1,
      ns ++ (dispatchPhase date o ds st0).2, ns ++ (dispatchPhase date o' ds st0).2,
      ?_, ?_, hmap⟩
    · unfold run_main
      rw [heq]
    · unfold run_main
      rw [heq]
  · intro u c d r s
    constructor
    · constructor
      · show retryKey u c d 1 ∈ (createFlag s (retryKey u c d 1))
        exact mem_createFlag_iff.mpr (Or.inl rfl)
      · rfl
    · constructor
      · show retryKey u c d 2
          ∈ removeFlag (createFlag s (retryKey u c d 2)) (retryKey u c d 1)
        exact mem_removeFlag_iff.mpr
          ⟨mem_createFlag_iff.mpr (Or.inl rfl), (retryKey_one_ne_two u c d).symm⟩
      · rfl
  · intro today date nowSec o pre rest a e s hall ha
    obtain ⟨ds, st, ns, heq, hmap⟩ :=
      evalAccounts_aborts today date nowSec e a ha pre rest (cleanup_old_flags date s) hall
    refine ⟨ds, st, ns, ?_, hmap⟩
    unfold run_main
    rw [heq]

/-- Witness for the amended C7 theorem: a readable eligible account followed
by one whose schedule file raises. -/
theorem pass_isolation_and_load_abort_witness :
    (∀ x ∈ [(⟨"alice", .rows [⟨"Math", "Senin", "09:00 - 10:30"⟩]⟩ : Account)],
      x.schedule.readable = true)
    ∧ (⟨"bob", .unreadable "UnicodeDecodeError"⟩ : Account).schedule
        = .unreadable "UnicodeDecodeError"
    ∧ ∃ ds st ns,
        run_main "Senin" "2024-05-06" (9*3600 + 5*60) (fun _ _ => Outcome.success)
          ([⟨"alice", .rows [⟨"Math", "Senin", "09:00 - 10:30"⟩]⟩]
            ++ ⟨"bob", .unreadable "UnicodeDecodeError"⟩ :: []) []
          = .aborted "UnicodeDecodeError" ds st ns
        ∧ ds.map Prod.fst = ["alice"] :=
  ⟨by decide, rfl,
   pass_isolation_and_load_abort.2.2 "Senin" "2024-05-06" (9*3600 + 5*60)
     (fun _ _ => Outcome.success)
     [⟨"alice", .rows [⟨"Math", "Senin", "09:00 - 10:30"⟩]⟩] []
     ⟨"bob", .unreadable "UnicodeDecodeError"⟩ "UnicodeDecodeError" []
     (by decide) rfl⟩

theorem updRow_courseName (c t : String) (r : Row) :
    (updRow c t r).1.courseName = r.courseName := by
  unfold updRow
  by_cases hm : matchesCourse c r
  · rw [if_pos hm]
    by_cases ht : r.time ≠ t
    · rw [if_pos ht]
    · rw [if_neg ht]
  · rw [if_neg hm]

theorem updRow_time (c t : String) (r : Row)
    (hm : matchesCourse c r = true) : (updRow c t r).1.time = t := by
  unfold updRow
  rw [if_pos hm]
  by_cases ht : r.time ≠ t
  · rw [if_pos ht]
  · rw [if_neg ht]
    exact not_not.mp ht

theorem matchesCourse_updRow (c t : String) (r : Row) :
    matchesCourse c (updRow c t r).1 = matchesCourse c r := by
  unfold matchesCourse
  rw [updRow_courseName]

theorem updRow_noop (c t : String) (r : Row) (h : matchesCourse c r = true → r.time = t) :
    updRow c t r = (r, false) := by
  unfold updRow
  by_cases hm : matchesCourse c r
  · rw [if_pos hm, if_neg (by rw [h hm]; exact fun hx => hx rfl)]
  · rw [if_neg hm]

theorem updRow_idem (c t : String) (r : Row) :
    updRow c t (updRow c t r).1 = ((updRow c t r).1, false) :=
  updRow_noop c t (updRow c t r).1
    (fun hm' => updRow_time c t r (by rwa [matchesCourse_updRow] at hm'))

/-- C8: schedule-drift correction is idempotent.  A second application of
`update_schedule_time` with the same course and observed time on the rows the
first application produced sets the `updated` flag to false and leaves the
rows unchanged, so no second file write and no second notification happen;
and a call whose observed time already equals the stored time of every
matching row is a complete no-op (flag false, rows unchanged). -/
theorem drift_correction_idempotent (c t : String) :
    (∀ rows : List Row,
      update_schedule_time c t (update_schedule_time c t rows).1
        = ((update_schedule_time c t rows).1, false))
    ∧ (∀ rows : List Row, (∀ r ∈ rows, matchesCourse c r = true → r.time = t) →
      update_schedule_time c t rows = (rows, false)) := by
  constructor
  · intro rows
    induction rows with
    | nil => rfl
    | cons r rest ih =>
      show update_schedule_time c t
          ((updRow c t r).1 :: (update_schedule_time c t rest).1) = _
      unfold update_schedule_time
      dsimp only
      rw [updRow_idem, ih]
      rfl
  · intro rows h
    induction rows with
    | nil => rfl
    | cons r rest ih =>
      unfold update_schedule_time
      dsimp only
      rw [updRow_noop c t r (h r (List.mem_cons_self r rest)),
        ih (fun r' hr' => h r' (List.mem_cons_of_mem r hr'))]
      rfl

/-- Witness for the C8 theorem: a matching row already carrying the observed
time is left untouched with no write and no notification. -/
theorem drift_correction_idempotent_witness :
    (∀ r ∈ [(⟨"Math", "Senin", "09:00 - 10:30"⟩ : Row)],
      matchesCourse "math" r = true → r.time = "09:00 - 10:30")
    ∧ update_schedule_time "math" "09:00 - 10:30" [⟨"Math", "Senin", "09:00 - 10:30"⟩]
        = ([⟨"Math", "Senin", "09:00 - 10:30"⟩], false) :=
  ⟨by decide,
   (drift_correction_idempotent "math" "09:00 - 10:30").2
     [⟨"Math", "Senin", "09:00 - 10:30"⟩] (by decide)⟩

theorem successKey_contains_date (u c today : String) :
    containsSub ("_" ++ today) (successKey u c today) = true := by
  unfold containsSub
  apply decide_eq_true
  refine ⟨("success_" ++ u ++ "_" ++ safeName c).data, (".flag" : String).data, ?_⟩
  simp [String.toList, successKey, String.data_append, List.append_assoc]

theorem retryKey_contains_date (u c today : String) (n : Nat) :
    containsSub ("_" ++ today) (retryKey u c today n) = true := by
  unfold containsSub
  apply decide_eq_true
  refine ⟨("retry_" ++ u ++ "_" ++ safeName c).data,
    ("_attempt_" : String).data ++ (Nat.repr n).data ++ (".flag" : String).data, ?_⟩
  simp [String.toList, retryKey, retryBase, String.data_append, List.append_assoc]

/-- C9 counterexample: the garbage collector tests for today's date as a
substring of the whole filename, not against the flag's embedded date-stamp
field.  A success flag whose date stamp is yesterday survives a run because
today's date string happens to occur in the username part of the name. -/
theorem cleanup_datestamp_counterexample :
    ("2024-05-06" : String) ≠ "2024-05-07"
    ∧ cleanup_old_flags "2024-05-07" [successKey "bob_2024-05-07" "Math" "2024-05-06"]
        = [successKey "bob_2024-05-07" "Math" "2024-05-06"] := by
  refine ⟨by decide, by decide⟩

/-- C9 (amended): one garbage-collector run deletes exactly those flags whose
name begins with `success_` or `retry_` and does not contain `_<today>` as a
substring.  Every success/retry flag whose date stamp is today contains that
substring and is therefore left untouched; a flag with a different date stamp
is deleted unless today's date string happens to occur elsewhere in its name.
The spec's scenario (run on 2024-05-07 deletes the 2024-05-06 flags and keeps
the same-day flag) holds. -/
theorem cleanup_old_flags_spec (today : String) :
    (∀ (s : Store) (f : String),
      f ∈ cleanup_old_flags today s ↔ f ∈ s ∧ isStaleFlag today f = false)
    ∧ (∀ (u c : String) (n : Nat) (s : Store),
        (successKey u c today ∈ s → successKey u c today ∈ cleanup_old_flags today s)
        ∧ (retryKey u c today n ∈ s → retryKey u c today n ∈ cleanup_old_flags today s))
    ∧ cleanup_old_flags "2024-05-07"
        [successKey "alice" "Math" "2024-05-06",
         retryKey "alice" "Math" "2024-05-06" 1,
         successKey "alice" "Math" "2024-05-07"]
        = [successKey "alice" "Math" "2024-05-07"] := by
  refine ⟨?_, ?_, by decide⟩
  · intro s f
    unfold cleanup_old_flags
    rw [List.mem_filter]
    simp
  · intro u c n s
    constructor
    · intro hm
      unfold cleanup_old_flags
      refine List.mem_filter.mpr ⟨hm, ?_⟩
      simp [isStaleFlag, successKey_contains_date]
    · intro hm
      unfold cleanup_old_flags
      refine List.mem_filter.mpr ⟨hm, ?_⟩
      simp [isStaleFlag, retryKey_contains_date]

/-- Witness for the amended C9 theorem: a today-dated success flag is kept. -/
theorem cleanup_old_flags_spec_witness :
    successKey "alice" "Math" "2024-05-07" ∈ [successKey "alice" "Math" "2024-05-07"]
    ∧ successKey "alice" "Math" "2024-05-07"
        ∈ cleanup_old_flags "2024-05-07" [successKey "alice" "Math" "2024-05-07"] :=
  ⟨by decide,
   ((cleanup_old_flags_spec "2024-05-07").2.1 "alice" "Math" 1
     [successKey "alice" "Math" "2024-05-07"]).1 (by decide)⟩

theorem dropWhile_eq_self_of_headNotSpace {l : List Char}
    (h : headNotSpace l = true) : l.dropWhile isPySpace = l := by
  cases l with
  | nil => rfl
  | cons c t =>
    have hc : isPySpace c = false := by
      simpa [headNotSpace] using h
    simp [List.dropWhile_cons, hc]

theorem pyStrip_eq_self {l : List Char}
    (h1 : headNotSpace l = true) (h2 : headNotSpace l.reverse = true) :
    pyStrip l = l := by
  unfold pyStrip
  rw [dropWhile_eq_self_of_headNotSpace h1, dropWhile_eq_self_of_headNotSpace h2,
    List.reverse_reverse]

theorem noDoubleSpace_tail {c : Char} {t : List Char}
    (h : noDoubleSpace (c :: t) = true) : noDoubleSpace t = true := by
  cases t with
  | nil => rfl
  | cons d t' =>
    have h0 := h
    unfold noDoubleSpace at h0
    simp only [Bool.and_eq_true] at h0
    exact h0.2

theorem collapseWsAux_eq_map {l : List Char}
    (hA : pyWsOnlySpace l = true) (hB : noDoubleSpace l = true) :
    (collapseWsAux false l = l.map (fun c => if c = ' ' then '_' else c))
    ∧ (headNotSpace l = true →
        collapseWsAux true l = l.map (fun c => if c = ' ' then '_' else c)) := by
  induction l with
  | nil => exact ⟨rfl, fun _ => rfl⟩
  | cons c t ih =>
    have hAc : isPySpace c = true → c = ' ' := by
      have hm := (List.all_eq_true.mp hA) c (List.mem_cons_self c t)
      intro hsp
      simp only [Bool.or_eq_true] at hm
      rcases hm with h | h
      · rw [hsp] at h; exact absurd h (by decide)
      · exact of_decide_eq_true h
    have hAt : pyWsOnlySpace t = true := by
      apply List.all_eq_true.mpr
      intro x hx
      exact (List.all_eq_true.mp hA) x (List.mem_cons_of_mem c hx)
    have hBt : noDoubleSpace t = true := noDoubleSpace_tail hB
    have ih' := ih hAt hBt
    by_cases hsp : isPySpace c = true
    · have hc : c = ' ' := hAc hsp
      have hheadt : headNotSpace t = true := by
        cases t with
        | nil => rfl
        | cons d t' =>
          have hnd : ¬(c = ' ' ∧ d = ' ') := by
            have h0 := hB
            unfold noDoubleSpace at h0
            simp only [Bool.and_eq_true] at h0
            have h1 := h0.1
            intro ⟨he1, he2⟩
            rw [he1, he2] at h1
            simp at h1
          have hd : d ≠ ' ' := fun hde => hnd ⟨hc, hde⟩
          have : isPySpace d = false := by
            cases hpd : isPySpace d with
            | false => rfl
            | true =>
              have hm2 := (List.all_eq_true.mp hA) d
                (List.mem_cons_of_mem c (List.mem_cons_self d t'))
              simp only [Bool.or_eq_true] at hm2
              rcases hm2 with h | h
              · rw [hpd] at h; exact absurd h (by decide)
              · exact absurd (of_decide_eq_true h) hd
          simp [headNotSpace, this]
      constructor
      · show collapseWsAux false (c :: t) = _
        simp only [collapseWsAux]
        rw [if_pos hsp, if_neg (by decide)]
        rw [List.map_cons, hc]
        show '_' :: collapseWsAux true t = '_' :: _
        rw [ih'.2 hheadt]
      · intro hhead
        exfalso
        have : isPySpace c = false := by simpa [headNotSpace] using hhead
        rw [hsp] at this
        exact absurd this (by decide)
    · have hcne : c ≠ ' ' := by
        intro he
        rw [he] at hsp
        exact hsp (by decide)
      have hfalse : collapseWsAux false (c :: t)
          = c :: collapseWsAux false t := by
        simp only [collapseWsAux]
        rw [if_neg hsp]
      have htrue : collapseWsAux true (c :: t)
          = c :: collapseWsAux false t := by
        simp only [collapseWsAux]
        rw [if_neg hsp]
      have hmap : (c :: t).map (fun c => if c = ' ' then '_' else c)
          = c :: t.map (fun c => if c = ' ' then '_' else c) := by
        rw [List.map_cons, if_neg hcne]
      refine ⟨?_, fun _ => ?_⟩
      · rw [hfalse, hmap, ih'.1]
      · rw [htrue, hmap, ih'.1]

/-- C10 counterexample: the two sanitizers differ as functions.  On the
course name `"A  B"` (two consecutive spaces) the bots write
`pause_once_u_A__B.flag` while the scheduler probes and deletes
`pause_once_u_A_B.flag`, so `is_paused` returns false and leaves the bot's
flag in place; on `"A\u00A0B"` (a no-break space, matched by Python's `\s`
and left alone by `replace(' ', '_')`) the scheduler likewise probes
`pause_once_u_A_B.flag` while the bot key keeps the NBSP, and the pause is
again never observed. -/
theorem pauseonce_key_counterexample :
    botSafeName "A  B" = "A__B"
    ∧ safeName "A  B" = "A_B"
    ∧ botPauseOnceKey "u" "A  B" ≠ pauseOnceKey "u" "A  B"
    ∧ is_paused "u" "A  B" [botPauseOnceKey "u" "A  B"]
        = (false, [botPauseOnceKey "u" "A  B"])
    ∧ botSafeName "A\u00A0B" = "A\u00A0B"
    ∧ safeName "A\u00A0B" = "A_B"
    ∧ goodCourseName ("A\u00A0B" : String).toList = false
    ∧ is_paused "u" "A\u00A0B" [botPauseOnceKey "u" "A\u00A0B"]
        = (false, [botPauseOnceKey "u" "A\u00A0B"]) := by
  refine ⟨by decide, by decide, by decide, by decide, by decide, by decide, by decide,
    by decide⟩

theorem pauseUserKey_ne_botPauseOnceKey (u u' c' : String) :
    pauseUserKey u ≠ botPauseOnceKey u' c' := by
  intro h
  have hd := congrArg String.data h
  simp only [pauseUserKey, botPauseOnceKey, String.data_append] at hd
  simp only [List.cons_append, List.append_assoc] at hd
  injection hd with e1 hd
  injection hd with e2 hd
  injection hd with e3 hd
  injection hd with e4 hd
  injection hd with e5 hd
  injection hd with e6 hd
  injection hd with e7 hd
  exact absurd e7 (by decide)

/-- C10 (amended): the bot key construction (space → underscore) and the
scheduler's probe key (strip, then each whitespace run → one underscore)
agree exactly on course names whose whitespace consists of single interior
plain spaces (no leading or trailing whitespace, no runs of two or more, and
no other Unicode whitespace such as tabs, newlines or no-break spaces); on
such names a pause set by a bot is observed and consumed by the scheduler.
In general the two sanitizers differ (e.g. on `"A  B"` or on a name with a
no-break space). -/
theorem pauseonce_key_agreement (u c : String)
    (h : goodCourseName c.toList = true) :
    botSafeName c = safeName c
    ∧ botPauseOnceKey u c = pauseOnceKey u c
    ∧ is_paused u c [botPauseOnceKey u c]
        = (true, removeFlag [botPauseOnceKey u c] (pauseOnceKey u c)) := by
  simp only [goodCourseName, Bool.and_eq_true] at h
  have hsafe : botSafeName c = safeName c := by
    unfold botSafeName safeName collapseWs
    rw [pyStrip_eq_self h.1.2 h.2, (collapseWsAux_eq_map h.1.1.1 h.1.1.2).1]
  have hkey : botPauseOnceKey u c = pauseOnceKey u c := by
    unfold botPauseOnceKey pauseOnceKey
    rw [hsafe]
  have hpu : pauseUserKey u ∉ [botPauseOnceKey u c] := by
    intro hm
    rcases List.mem_singleton.mp hm with he
    exact pauseUserKey_ne_botPauseOnceKey u u c he
  refine ⟨hsafe, hkey, ?_⟩
  unfold is_paused
  rw [if_neg hpu, if_pos (by rw [← hkey]; exact List.mem_cons_self _ _)]

/-- Witness for the amended C10 theorem on a well-formed course name. -/
theorem pauseonce_key_agreement_witness :
    goodCourseName ("Basis Data" : String).toList = true
    ∧ botSafeName "Basis Data" = safeName "Basis Data" :=
  ⟨by decide, (pauseonce_key_agreement "alice" "Basis Data" (by decide)).1⟩

end Spda

namespace Spda

example : safeName "A  B" = "A_B" := by rfl
example : botSafeName "A  B" = "A__B" := by rfl
example : safeName " Basis Data " = "Basis_Data" := by rfl
example : parseHM "09:00" = some 540 := by rfl
example : parseHM "9:5" = some 545 := by rfl
example : parseHM "24:00" = none := by rfl
example : rowQualifies "Senin" (9*3600 + 5*60) ⟨"Math", "Senin", "09:00 - 10:30"⟩ = true := by rfl
example : rowQualifies "Senin" (9*3600 + 16*60) ⟨"Math", "Senin", "09:00 - 10:30"⟩ = false := by rfl

example : get_current_attempt "alice" "Math" "2024-05-06"
    [retryKey "alice" "Math" "2024-05-06" 3] = 1 := by decide

example : specGetCurrentAttempt "alice" "Math" "2024-05-06"
    [retryKey "alice" "Math" "2024-05-06" 3] = 4 := by decide

example : get_current_class "Senin" (9*3600 + 12*60)
    [⟨"A", "Senin", "09:10 - 10:00"⟩, ⟨"B", "Senin", "09:00 - 10:00"⟩] = some "A" := by decide

example : cleanup_old_flags "2024-05-07"
    [successKey "bob_2024-05-07" "Math" "2024-05-06"]
    = [successKey "bob_2024-05-07" "Math" "2024-05-06"] := by decide

example : cleanup_old_flags "2024-05-07"
    [successKey "alice" "Math" "2024-05-06", successKey "alice" "Math" "2024-05-07"]
    = [successKey "alice" "Math" "2024-05-07"] := by decide

end Spda
